import Mathlib

/-!
Verification of the caption acquisition pipeline of src/app.py.

The Python source is shallowly embedded. Pure string processing is
translated to computable functions over List Char / String. External
effects are passed in explicitly: json.loads becomes a parse argument,
the network fetch of a subtitle URL becomes a fetch argument, and the
per-attempt outcomes of yt_dlp extraction become an event argument.
Python exceptions are modelled with Option / Except; the bare
try/except around the JSON3 branch of clean_any_content becomes a
fall-through on Except.error.
-/

namespace YtD

/-- Characters stripped by Python str.strip() and used as separators by
str.split(): the CPython Unicode whitespace table (horizontal tab
through carriage return, the information separators, space, next line,
no-break space, ogham space mark, the en-quad..hair-space block, line
and paragraph separators, narrow no-break space, medium mathematical
space, ideographic space). -/
def isPyWs (c : Char) : Bool :=
  (0x09 ≤ c.toNat && c.toNat ≤ 0x0d) || c == ' '
    || (0x1c ≤ c.toNat && c.toNat ≤ 0x1f) || c.toNat == 0x85
    || c.toNat == 0xa0 || c.toNat == 0x1680
    || (0x2000 ≤ c.toNat && c.toNat ≤ 0x200a) || c.toNat == 0x2028
    || c.toNat == 0x2029 || c.toNat == 0x202f || c.toNat == 0x205f
    || c.toNat == 0x3000

/-- Python str.strip(): drop leading and trailing whitespace. -/
def pyStripL (l : List Char) : List Char :=
  ((l.dropWhile isPyWs).reverse.dropWhile isPyWs).reverse

/-- Python str.strip() lifted to String. -/
def pyStrip (s : String) : String :=
  String.mk (pyStripL s.toList)

/-- Python str.split(sep) with a one-character separator, as used by
content.split(chr 10): empty pieces are kept. -/
def splitLinesL : List Char → List (List Char)
  | [] => [[]]
  | c :: rest =>
    if c = '\n' then [] :: splitLinesL rest
    else
      match splitLinesL rest with
      | l :: ls => (c :: l) :: ls
      | [] => [[c]]

/-- Worker for Python str.split() with no argument: split on whitespace
runs, discarding empty words.  The first argument accumulates the
current word in reverse. -/
def splitWsGo : List Char → List Char → List (List Char)
  | acc, [] => if acc = [] then [] else [acc.reverse]
  | acc, c :: rest =>
    if isPyWs c then
      if acc = [] then splitWsGo [] rest else acc.reverse :: splitWsGo [] rest
    else splitWsGo (c :: acc) rest

/-- Python str.split() with no argument. -/
def splitWs (l : List Char) : List (List Char) := splitWsGo [] l

/-- Python str.isdigit() for ASCII content: non-empty and all decimal
digits (the source only meets ASCII sequence-number lines here). -/
def isDigitsL (l : List Char) : Bool :=
  !l.isEmpty && l.all (fun c => '0' ≤ c && c ≤ '9')

/-- Does the pattern occur as a prefix of the text? -/
def startsWithL : List Char → List Char → Bool
  | [], _ => true
  | _ :: _, [] => false
  | p :: ps, c :: cs => p == c && startsWithL ps cs

/-- Python substring containment (the in operator on str). -/
def containsL (pat : List Char) : List Char → Bool
  | [] => startsWithL pat []
  | c :: rest => startsWithL pat (c :: rest) || containsL pat rest

/-- Find the first closing angle bracket and return the remainder after
it; models the tail of one match of the regex for inline tags. -/
def findClose : List Char → Option (List Char)
  | [] => none
  | c :: rest => if c = '>' then some rest else findClose rest

/-- At an opening angle bracket: the tag regex needs at least one
non-closing character and then a closing bracket; return the remainder
after the matched tag, or none when there is no match here. -/
def afterTag : List Char → Option (List Char)
  | [] => none
  | c :: rest => if c = '>' then none else findClose rest

theorem findClose_length_lt :
    ∀ l r, findClose l = some r → r.length < l.length := by
  intro l
  induction l with
  | nil => intro r h; simp [findClose] at h
  | cons c rest ih =>
    intro r h
    simp only [findClose] at h
    by_cases hc : c = '>'
    · simp [hc] at h
      simp [← h, List.length_cons, Nat.lt_succ_self]
    · simp [hc] at h
      exact Nat.lt_trans (ih r h) (Nat.lt_succ_self _)

theorem afterTag_length_lt :
    ∀ l r, afterTag l = some r → r.length < l.length := by
  intro l r h
  cases l with
  | nil => simp [afterTag] at h
  | cons c rest =>
    simp only [afterTag] at h
    by_cases hc : c = '>'
    · simp [hc] at h
    · simp [hc] at h
      exact Nat.lt_trans (findClose_length_lt rest r h) (Nat.lt_succ_self _)

/-- Scan worker for the inline-markup-tag regex.  The fuel argument is
a structural bound on the number of scan steps; by afterTag_length_lt
every recursive call strictly shrinks the text, so fuel equal to the
text length is never exhausted and the zero-fuel equation is dead
code. -/
def stripTagsGo : Nat → List Char → List Char
  | _, [] => []
  | 0, l => l
  | n + 1, c :: rest =>
    if c = '<' then
      match afterTag rest with
      | some r => stripTagsGo n r
      | none => c :: stripTagsGo n rest
    else c :: stripTagsGo n rest

/-- Python re.sub of the inline-markup-tag regex with the empty string:
delete every leftmost non-overlapping run that starts with an opening
angle bracket, has at least one character that is not a closing angle
bracket, and ends at the first following closing angle bracket. -/
def stripTagsL (l : List Char) : List Char :=
  stripTagsGo l.length l

/-- Space-join, as Python chr-32-join over a list of cleaned pieces. -/
def joinSpaceL (ls : List (List Char)) : List Char :=
  List.intercalate [' '] ls

/-!  ReferenceResolver: extract_video_id (src/app.py lines 37-49).

The three regular expressions are embedded directly, with re.search
semantics: leftmost match wins, alternatives tried left to right at
each position, greedy character classes. -/

/-- Membership in the character class of the first pattern. -/
def isIdChar (c : Char) : Bool :=
  ('0' ≤ c && c ≤ '9') || ('A' ≤ c && c ≤ 'Z') || ('a' ≤ c && c ≤ 'z')
    || c == '_' || c == '-'

/-- Exactly eleven identifier characters starting here (the counted
repetition of the first pattern). -/
def take11 (l : List Char) : Option (List Char) :=
  if (l.take 11).length = 11 ∧ (l.take 11).all isIdChar then some (l.take 11)
  else none

/-- One match attempt of the first pattern at the current position:
either a v= query-parameter form or a path-segment slash, followed by
exactly eleven identifier characters (captured). -/
def p1At : List Char → Option (List Char)
  | 'v' :: '=' :: rest => take11 rest
  | '/' :: rest => take11 rest
  | _ => none

/-- re.search for the first pattern: try every position left to right. -/
def p1Search : List Char → Option (List Char)
  | [] => none
  | c :: rest =>
    match p1At (c :: rest) with
    | some r => some r
    | none => p1Search rest

/-- Consume a literal, returning the remainder on success. -/
def eatLit : List Char → List Char → Option (List Char)
  | [], l => some l
  | _ :: _, [] => none
  | p :: ps, c :: cs => if p = c then eatLit ps cs else none

/-- One match attempt of the embed pattern at the current position: the
embed-path literal, then a captured non-empty greedy run of characters
that are neither a slash nor a question mark. -/
def p2At (l : List Char) : Option (List Char) :=
  match eatLit "youtube.com/embed/".toList l with
  | none => none
  | some rest =>
    let w := rest.takeWhile (fun c => !(c == '/' || c == '?'))
    if w = [] then none else some w

/-- re.search for the embed pattern. -/
def p2Search : List Char → Option (List Char)
  | [] => none
  | c :: rest =>
    match p2At (c :: rest) with
    | some r => some r
    | none => p2Search rest

/-- One match attempt of the short-link pattern at the current position:
the short-link literal, then a captured non-empty greedy run of
characters that are not a question mark. -/
def p3At (l : List Char) : Option (List Char) :=
  match eatLit "youtu.be/".toList l with
  | none => none
  | some rest =>
    let w := rest.takeWhile (fun c => !(c == '?'))
    if w = [] then none else some w

/-- re.search for the short-link pattern. -/
def p3Search : List Char → Option (List Char)
  | [] => none
  | c :: rest =>
    match p3At (c :: rest) with
    | some r => some r
    | none => p3Search rest

/-- extract_video_id (src/app.py lines 37-49): try the three patterns in
order; return the first captured group; otherwise None. -/
def extract_video_id (youtube_url : String) : Option String :=
  match p1Search youtube_url.toList with
  | some r => some (String.mk r)
  | none =>
    match p2Search youtube_url.toList with
    | some r => some (String.mk r)
    | none =>
      match p3Search youtube_url.toList with
      | some r => some (String.mk r)
      | none => none

/-- The fixed identifier shape the specification claims is re-validated:
eleven characters drawn from digits, ASCII letters, underscore and
hyphen. -/
def valid_video_id (s : String) : Bool :=
  s.length = 11 && s.toList.all isIdChar

/-!  LanguageClassifier: detect_language_from_title (src/app.py 67-105). -/

/-- Python str.lower(), modelled so that every test the classifier
performs on the lowered title agrees with the source.  The classifier
only tests membership in the lowercase Cyrillic set, membership in the
umlaut-and-sharp-s set, and whole-word equality with ASCII stop words.
The folds below are the complete preimages of those sets under
str.lower(): the Cyrillic capitals and the capital io for the Cyrillic
set; the capital umlauts and the capital sharp s (U+1E9E) for the
German set; and the ASCII capitals plus the Kelvin sign (U+212A, the
only other character lowering into ASCII) for stop-word letters.  Every
remaining character lowers, in Python as here, to something outside all
three sets — including the dotted capital I, whose two-code-point
Python lowering still never equals an ASCII stop word — so it is left
unchanged. -/
def pyLower (c : Char) : Char :=
  if 'A' ≤ c ∧ c ≤ 'Z' then Char.ofNat (c.toNat + 32)
  else if 'А' ≤ c ∧ c ≤ 'Я' then Char.ofNat (c.toNat + 32)
  else if c = 'Ё' then 'ё'
  else if c = 'Ä' then 'ä'
  else if c = 'Ö' then 'ö'
  else if c = 'Ü' then 'ü'
  else if c.toNat = 0x1e9e then 'ß'
  else if c.toNat = 0x212a then 'k'
  else c

def russian_chars : List Char := "абвгдеёжзийклмнопрстуфхцчшщъыьэюя".toList

def german_chars : List Char := "äöüß".toList

def french_words : List (List Char) :=
  ["les", "des", "est", "pour", "dans", "une", "un"].map String.toList

def spanish_words : List (List Char) :=
  ["el", "la", "los", "las", "y", "que", "del"].map String.toList

def portuguese_words : List (List Char) :=
  ["o", "a", "os", "as", "do", "da", "em"].map String.toList

def italian_words : List (List Char) :=
  ["il", "la", "i", "le", "del", "nel"].map String.toList

/-- Lower-cased character list of the title. -/
def titleLower (title : String) : List Char :=
  title.toList.map pyLower

/-- Any character of the lower-cased title inside the Russian range. -/
def has_russian_char (title : String) : Bool :=
  (titleLower title).any (fun c => russian_chars.contains c)

/-- Any character of the lower-cased title among the German umlauts. -/
def has_german_char (title : String) : Bool :=
  (titleLower title).any (fun c => german_chars.contains c)

/-- Any word of the fixed list present in the whitespace-split title. -/
def has_word_of (ws : List (List Char)) (title : String) : Bool :=
  ws.any (fun w => (splitWs (titleLower title)).contains w)

def has_french_word (title : String) : Bool := has_word_of french_words title

def has_spanish_word (title : String) : Bool := has_word_of spanish_words title

def has_portuguese_word (title : String) : Bool :=
  has_word_of portuguese_words title

def has_italian_word (title : String) : Bool := has_word_of italian_words title

/-- Any of the six heuristics of the classifier fires. -/
def heuristic_match (title : String) : Bool :=
  has_russian_char title || has_german_char title || has_french_word title
    || has_spanish_word title || has_portuguese_word title
    || has_italian_word title

/-- detect_language_from_title (src/app.py lines 67-105): character
ranges first, then stop-word lists, first match wins; empty titles give
no guess; everything else defaults to English. -/
def detect_language_from_title (title : String) : Option String :=
  if title = "" then none
  else if has_russian_char title then some "ru"
  else if has_german_char title then some "de"
  else if has_french_word title then some "fr"
  else if has_spanish_word title then some "es"
  else if has_portuguese_word title then some "pt"
  else if has_italian_word title then some "it"
  else some "en"

/-!  FormatNormalizer: clean_any_content (src/app.py 107-139).

json.loads is an external library call; it is passed in as a parse
argument producing an optional JSON value (none models a raised
ValueError).  The attribute and type errors Python raises when the
parsed document does not have the events / segs / utf8 shape are
modelled with Except; the enclosing bare except turns any of them into
the line-oriented fall-through, exactly as in the source. -/

inductive JValue where
  | null : JValue
  | bool : Bool → JValue
  | num : Int → JValue
  | str : String → JValue
  | arr : List JValue → JValue
  | obj : List (String × JValue) → JValue

/-- Python dict.get(key, default) on a parsed JSON value: attribute
error (modelled as Except.error) when the receiver is not an object.
Objects produced by json.loads have unique keys, so first-match lookup
is faithful. -/
def jGet (v : JValue) (k : String) (dflt : JValue) : Except Unit JValue :=
  match v with
  | .obj kvs =>
    match List.lookup k kvs with
    | some x => .ok x
    | none => .ok dflt
  | _ => .error ()

/-- Python iteration over a parsed JSON value: lists yield elements,
strings yield one-character strings, dicts yield their keys, everything
else raises a type error. -/
def jIter : JValue → Except Unit (List JValue)
  | .arr xs => .ok xs
  | .str s => .ok (s.toList.map (fun c => JValue.str (String.mk [c])))
  | .obj kvs => .ok (kvs.map (fun kv => JValue.str kv.1))
  | _ => .error ()

/-- One segment of the JSON3 branch: read the utf8 field with empty
default, strip it, and keep it unless it is empty or a purely bracketed
annotation.  Attribute error when the field value is not a string. -/
def utf8Line (seg : JValue) : Except Unit (Option String) := do
  let v ← jGet seg "utf8" (JValue.str "")
  match v with
  | .str s =>
    match pyStripL s.toList with
    | [] => pure none
    | c :: rest =>
      if c = '[' ∧ (c :: rest).getLast? = some ']' then pure none
      else pure (some (String.mk (c :: rest)))
  | _ => .error ()

/-- All retained fragment texts of one event, in segment order. -/
def eventLines (ev : JValue) : Except Unit (List String) := do
  let segsV ← jGet ev "segs" (JValue.arr [])
  let segs ← jIter segsV
  segs.foldlM
    (fun acc seg => do
      match (← utf8Line seg) with
      | some l => pure (acc ++ [l])
      | none => pure acc)
    []

/-- The JSON3 branch of clean_any_content: all retained fragment texts
in event order. -/
def json3_collect (data : JValue) : Except Unit (List String) := do
  let eventsV ← jGet data "events" (JValue.arr [])
  let evs ← jIter eventsV
  evs.foldlM (fun acc ev => do pure (acc ++ (← eventLines ev))) []

/-- The minimum-length quality gate shared by both branches of
clean_any_content: return the cleaned text only when strictly longer
than fifty characters. -/
def len_gate (s : String) : Option String :=
  if 50 < s.length then some s else none

/-- The time-range marker tested by the line filter. -/
def time_marker : List Char := "-->".toList

/-- The loop of the line-oriented branch: strip each line, drop it when
it is empty, purely numeric, or contains a time-range marker, and strip
inline markup tags from the survivors. -/
def clean_sub_lines : List (List Char) → List (List Char)
  | [] => []
  | l :: ls =>
    let t := pyStripL l
    if t = [] || isDigitsL t || containsL time_marker t then clean_sub_lines ls
    else stripTagsL t :: clean_sub_lines ls

/-- The line-oriented branch of clean_any_content before the gate:
split on newlines, clean the lines, space-join and strip. -/
def lineClean (content : String) : String :=
  String.mk (pyStripL (joinSpaceL (clean_sub_lines (splitLinesL content.toList))))

/-- The stripped content starts with an opening brace (the structured
format sniff). -/
def startsBrace (content : String) : Bool :=
  match pyStripL content.toList with
  | '{' :: _ => true
  | _ => false

/-- clean_any_content (src/app.py lines 107-139), with json.loads
passed in as parse.  Empty content is falsy and rejected outright; the
JSON3 branch runs when the tag is json3 or the content sniffs as
structured, and any parse or shape failure inside it falls through to
the line-oriented branch. -/
def clean_any_content (parse : String → Option JValue)
    (content : String) (ext : String) : Option String :=
  if content = "" then none
  else if ext = "json3" ∨ startsBrace content then
    match parse content with
    | some v =>
      match json3_collect v with
      | .ok parts => len_gate (pyStrip (String.intercalate " " parts))
      | .error _ => len_gate (lineClean content)
    | none => len_gate (lineClean content)
  else len_gate (lineClean content)

/-!  AcquisitionOrchestrator data model (src/app.py 141-301).

Tracks come back from yt_dlp as two insertion-ordered dicts
(subtitles and automatic_captions) mapping a language code to a list of
format entries.  Dicts are embedded as association lists in insertion
order; a missing url key in an entry is an Option; the network download
of a chosen url and json.loads are the two external effects, bundled in
Env. -/

structure SubEntry where
  url : Option String
  ext : String
deriving DecidableEq

/-- An insertion-ordered caption dict: language code to format entries. -/
abbrev Catalog := List (String × List SubEntry)

structure VideoInfo where
  subtitles : Option Catalog
  automatic_captions : Option Catalog
deriving DecidableEq

/-- The two external effects of the acquisition pipeline: fetching a
subtitle url (none models a raised download exception) and json.loads
(none models a raised ValueError). -/
structure Env where
  fetch : String → Option String
  parse : String → Option JValue

/-- The fixed format-preference list of download_and_process_subs. -/
def preferred_formats : List String := ["json3", "json", "srv3", "vtt", "srt"]

/-- Position of a format in the ordered preference list. -/
def idxIn : List String → String → Option Nat
  | [], _ => none
  | x :: xs, e => if x = e then some 0 else (idxIn xs e).map Nat.succ

/-- The score of a format entry: its index in the preference list, or
99 for unrecognized formats. -/
def fmtScore (ext : String) : Nat :=
  match idxIn preferred_formats ext with
  | some i => i
  | none => 99

/-- One iteration of the best-format selection loop: entries without a
url are skipped; an entry replaces the current best exactly when its
score is strictly smaller. -/
def select_step (st : Option (String × String) × Nat) (sub : SubEntry) :
    Option (String × String) × Nat :=
  match sub.url with
  | none => st
  | some u =>
    if fmtScore sub.ext < st.2 then (some (u, sub.ext), fmtScore sub.ext)
    else st

/-- The url/format selection of download_and_process_subs
(src/app.py 255-270): best score starts at 100 and the first entry
attaining the minimal score wins. -/
def select_best (subs : List SubEntry) : Option (String × String) :=
  (subs.foldl select_step (none, 100)).1

/-- download_and_process_subs (src/app.py 253-301): pick the best
delivery url, fetch it, clean it; any download exception or cleaning
rejection yields none. -/
def download_and_process_subs (env : Env) (subs : List SubEntry) :
    Option (String × String) :=
  match select_best subs with
  | none => none
  | some (u, fmt) =>
    match env.fetch u with
    | none => none
    | some raw =>
      match clean_any_content env.parse raw fmt with
      | some text => some (text, fmt)
      | none => none

/-- One block of check_language_with_priority: when the optional
catalog is present and has the language, download and clean it; the
provenance tag names the side. -/
def lookup_download (env : Env) (catOpt : Option Catalog)
    (language stype : String) : Option (String × String × String) :=
  match catOpt with
  | some cat =>
    match List.lookup language cat with
    | some subs =>
      match download_and_process_subs env subs with
      | some (text, _) => some (text, language, stype)
      | none => none
    | none => none
  | none => none

/-- check_language_with_priority (src/app.py 184-205): manual captions
of the given language first, then automatic ones. -/
def check_language_with_priority (env : Env) (info : VideoInfo)
    (language : String) : Option (String × String × String) :=
  match lookup_download env info.subtitles language "manual" with
  | some r => some r
  | none => lookup_download env info.automatic_captions language "auto"

/-- The fixed popular-language list of check_any_available_language. -/
def popular_langs : List String :=
  ["en", "ru", "es", "fr", "de", "it", "pt", "ja", "ko", "zh"]

/-- The popular-language loop of check_any_available_language: try each
listed language present in the catalog until one download succeeds. -/
def try_langs (env : Env) (cat : Catalog) (stype : String) :
    List String → Option (String × String × String)
  | [] => none
  | l :: ls =>
    match List.lookup l cat with
    | some subs =>
      match download_and_process_subs env subs with
      | some (text, _) => some (text, l, stype)
      | none => try_langs env cat stype ls
    | none => try_langs env cat stype ls

/-- One side (manual or automatic) of check_any_available_language:
popular languages first, then a single try of the first catalog
language in insertion order. -/
def check_side (env : Env) (cat : Catalog) (stype : String) :
    Option (String × String × String) :=
  match cat with
  | [] => none
  | (l0, subs0) :: _ =>
    match try_langs env cat stype popular_langs with
    | some r => some r
    | none =>
      match download_and_process_subs env subs0 with
      | some (text, _) => some (text, l0, stype)
      | none => none

/-- check_any_available_language (src/app.py 207-251): every manual
option before any automatic option. -/
def check_any_available_language (env : Env) (info : VideoInfo) :
    Option (String × String × String) :=
  match
    (match info.subtitles with
     | some ms => check_side env ms "manual"
     | none => none) with
  | some r => some r
  | none =>
    match info.automatic_captions with
    | some as_ => check_side env as_ "auto"
    | none => none

/-- get_subtitles_with_priority (src/app.py 141-182): English, then
Russian, then the detected title language when it is neither of those,
then any available language. -/
def get_subtitles_with_priority (env : Env) (info : VideoInfo)
    (video_title : String) : Option (String × String × String) :=
  match check_language_with_priority env info "en" with
  | some r => some r
  | none =>
    match check_language_with_priority env info "ru" with
    | some r => some r
    | none =>
      match
        (match detect_language_from_title video_title with
         | some l =>
           if l ≠ "en" ∧ l ≠ "ru" then check_language_with_priority env info l
           else none
         | none => none) with
      | some r => some r
      | none => check_any_available_language env info

/-!  download_subtitles (src/app.py 325-487) and the terminal outcomes
of the download route (src/app.py 707-713).

The body is a two-iteration retry loop around yt_dlp extraction.  What
each iteration observes from the outside world is one event: extraction
raised a blocked-detection DownloadError, raised some other
DownloadError, raised a generic exception, returned no info, or
returned an info dict together with the separately fetched title and
author.  Header rotation, sleeps and logging have no effect on the
returned value and are not modelled. -/

inductive AttemptEvent where
  | raiseBlocked : AttemptEvent
  | raiseOther : AttemptEvent
  | raiseGeneric : AttemptEvent
  | infoNone : AttemptEvent
  | infoOk : VideoInfo → String → String → AttemptEvent
deriving DecidableEq

structure DLResult where
  title : String
  author : String
  subtitles : String
  video_id : String
  language : String
  source_type : String
deriving DecidableEq

/-- One iteration of the retry loop of download_subtitles.  The result
is some out when the function terminates with out at this iteration
(either an explicit return or, on the last iteration, falling out of
the loop to the final return of None), and none when the iteration
continues to the next attempt. -/
def run_attempt (env : Env) (vid : String) (last : Bool) :
    AttemptEvent → Option (Option DLResult)
  | .infoOk info title author =>
    match get_subtitles_with_priority env info title with
    | some (text, lang, st) =>
      some (some
        { title := title, author := author, subtitles := text,
          video_id := vid, language := lang, source_type := st })
    | none => if last then some none else none
  | .infoNone => if last then some none else none
  | .raiseBlocked => if last then some none else none
  | .raiseOther => if last then some none else none
  | .raiseGeneric => if last then some none else none

/-- download_subtitles (src/app.py 325-487): two attempts, every
failure path terminating in None. -/
def download_subtitles (env : Env) (vid : String)
    (e1 e2 : AttemptEvent) : Option DLResult :=
  match run_attempt env vid false e1 with
  | some out => out
  | none =>
    match run_attempt env vid true e2 with
    | some out => out
    | none => none

/-- The terminal classification performed by the download route on the
value returned by download_subtitles (src/app.py 707-713). -/
inductive RouteOutcome where
  | errBlockedMsg : RouteOutcome
  | errNoSubsMsg : RouteOutcome
  | ok : DLResult → RouteOutcome
deriving DecidableEq

/-- download_subtitles_route, terminal part: None yields the single
blocked-request error message; a result without subtitle text would
yield the not-found message; otherwise success. -/
def download_subtitles_route (res : Option DLResult) : RouteOutcome :=
  match res with
  | none => .errBlockedMsg
  | some r => if r.subtitles = "" then .errNoSubsMsg else .ok r

/-!  Specification-side definitions, for the refinement claims.  These
are written from the words of the specification, to be compared with
the definitions above that embed the source. -/

/-- One rung of the language ladder: try one language on one side of
the catalog (manual when the flag is true), or fall back to the first
catalog language in insertion order on that side. -/
inductive Step where
  | lang : Bool → String → Step
  | firstCat : Bool → Step
deriving DecidableEq

/-- The catalog consulted for a manual (true) or automatic (false)
rung. -/
def sideCat (info : VideoInfo) : Bool → Option Catalog
  | true => info.subtitles
  | false => info.automatic_captions

/-- The provenance string of a side. -/
def stypeOf : Bool → String
  | true => "manual"
  | false => "auto"

/-- Attempt one rung of the ladder: find the track list, download and
clean it; none when the rung does not apply or the download fails. -/
def tryStep (env : Env) (info : VideoInfo) :
    Step → Option (String × String × String)
  | .lang m l =>
    match sideCat info m with
    | some cat =>
      match List.lookup l cat with
      | some subs =>
        match download_and_process_subs env subs with
        | some (text, _) => some (text, l, stypeOf m)
        | none => none
      | none => none
    | none => none
  | .firstCat m =>
    match sideCat info m with
    | some ((l0, subs0) :: _) =>
      match download_and_process_subs env subs0 with
      | some (text, _) => some (text, l0, stypeOf m)
      | none => none
    | _ => none

/-- First defined value in a list of attempts. -/
def firstSome : List (Option α) → Option α
  | [] => none
  | o :: os =>
    match o with
    | some r => some r
    | none => firstSome os

/-- The final rungs on one side: the fixed popular-language list, then
the fall-back to the first catalog language in insertion order. -/
def side_steps (m : Bool) : List Step :=
  popular_langs.map (Step.lang m) ++ [Step.firstCat m]

/-- The language ladder in the order the specification states it:
English manual, English auto, Russian manual, Russian auto, the
detected title language manual then auto (skipped entirely when the
detected language is English or Russian), then any remaining language
with every manual rung before every auto rung, the fixed
popular-language list tried before the fall-back to the first catalog
language in insertion order. -/
def spec_language_ladder (videoLang : Option String) : List Step :=
  ([Step.lang true "en", Step.lang false "en"] ++
   [Step.lang true "ru", Step.lang false "ru"])
  ++ ((match videoLang with
      | some l =>
        if l ≠ "en" ∧ l ≠ "ru" then [Step.lang true l, Step.lang false l]
        else []
      | none => [])
  ++ (side_steps true ++ side_steps false))

/-- Keep a stripped line exactly when it is non-empty, not purely
numeric, and free of the time-range marker. -/
def keep_stripped (t : List Char) : Bool :=
  !(t.isEmpty || isDigitsL t || containsL time_marker t)

/-- The line-oriented cleaning rule as the specification words it: strip
every line, drop blank lines, pure sequence-number lines and lines
containing a time-range marker, strip inline markup tags, join the
survivors by single spaces and strip the result. -/
def line_clean_spec (content : List Char) : List Char :=
  pyStripL (joinSpaceL
    ((((splitLinesL content).map pyStripL).filter keep_stripped).map stripTagsL))

/-- The cleaned text of clean_any_content before the quality gate is
applied: the branch structure of clean_any_content with the final
length test removed. -/
def cleaned_text (parse : String → Option JValue)
    (content : String) (ext : String) : String :=
  if content = "" then ""
  else if ext = "json3" ∨ startsBrace content then
    match parse content with
    | some v =>
      match json3_collect v with
      | .ok parts => pyStrip (String.intercalate " " parts)
      | .error _ => lineClean content
    | none => lineClean content
  else lineClean content

/-!  Shared helper lemmas. -/

theorem len_gate_some {s t : String} (h : len_gate s = some t) :
    t = s ∧ 50 < s.length := by
  unfold len_gate at h
  split at h
  · cases h; exact ⟨rfl, by assumption⟩
  · cases h

theorem len_gate_none {s : String} : len_gate s = none ↔ s.length ≤ 50 := by
  unfold len_gate
  split
  · rename_i hlt
    simp
    omega
  · rename_i hlt
    simp
    omega

/-- clean_any_content is the quality gate applied to the branch-selected
cleaned text. -/
theorem clean_gate (parse : String → Option JValue) (content ext : String) :
    clean_any_content parse content ext =
      len_gate (cleaned_text parse content ext) := by
  unfold clean_any_content cleaned_text
  by_cases h0 : content = ""
  · simp only [h0, if_true]
    decide
  · simp only [h0, if_false]
    by_cases h1 : ext = "json3" ∨ startsBrace content
    · simp only [h1, if_true]
      cases hp : parse content with
      | none => rfl
      | some v => cases hc : json3_collect v <;> simp only [hc]
    · simp only [h1, if_false]

theorem clean_some_length {parse : String → Option JValue}
    {content ext t : String}
    (h : clean_any_content parse content ext = some t) : 50 < t.length := by
  rw [clean_gate] at h
  obtain ⟨ht, hlen⟩ := len_gate_some h
  rw [ht]
  exact hlen

/-!  C10. -/

/-- C10: extract_video_id does not require a YouTube host at all: a URL
on a non-YouTube domain whose path ends in a slash followed by eleven
identifier characters yields that substring as the video id. -/
theorem extract_video_id_accepts_non_youtube_host :
    extract_video_id "http://evil.example/abcdefghijk" = some "abcdefghijk" := by
  decide

/-!  C2. -/

/-- C2 counterexample: the embed pattern captures a path-traversal
candidate of length two, and extract_video_id returns it without any
shape re-validation, although the candidate fails the fixed
eleven-character identifier shape. -/
theorem extract_video_id_no_revalidation :
    extract_video_id "youtube.com/embed/.." = some ".." ∧
    valid_video_id ".." = false := by
  constructor
  · decide
  · decide

theorem take11_shape {l t : List Char} (h : take11 l = some t) :
    t.length = 11 ∧ t.all isIdChar = true := by
  unfold take11 at h
  split at h
  · rename_i hcond
    cases h
    exact hcond
  · cases h

theorem p1At_shape : ∀ l r, p1At l = some r →
    r.length = 11 ∧ r.all isIdChar = true := by
  intro l r h
  unfold p1At at h
  split at h
  · exact take11_shape h
  · exact take11_shape h
  · cases h

theorem p1Search_shape : ∀ l r, p1Search l = some r →
    r.length = 11 ∧ r.all isIdChar = true := by
  intro l
  induction l with
  | nil => intro r h; cases h
  | cons c rest ih =>
    intro r h
    unfold p1Search at h
    cases hp : p1At (c :: rest) with
    | some x =>
      rw [hp] at h
      cases h
      exact p1At_shape _ _ hp
    | none =>
      rw [hp] at h
      exact ih r h

/-- C2 amended: there is no independent re-validation; only the first
pattern constrains its capture to the fixed identifier shape, and when
it matches, extract_video_id returns its capture; the embed and
short-link patterns return arbitrary-length captures. -/
theorem extract_video_id_first_pattern_shape (s : String) (r : List Char)
    (h : p1Search s.toList = some r) :
    extract_video_id s = some (String.mk r) ∧
    (String.mk r).length = 11 ∧ (String.mk r).toList.all isIdChar = true := by
  obtain ⟨hlen, hall⟩ := p1Search_shape _ _ h
  refine ⟨?_, hlen, hall⟩
  unfold extract_video_id
  rw [h]

/-- Witness for the amended C2 theorem at a concrete query-parameter
URL. -/
theorem extract_video_id_first_pattern_shape_witness :
    extract_video_id "watch?v=dQw4w9WgXcQ" =
      some (String.mk ['d', 'Q', 'w', '4', 'w', '9', 'W', 'g', 'X', 'c', 'Q']) ∧
    (String.mk ['d', 'Q', 'w', '4', 'w', '9', 'W', 'g', 'X', 'c', 'Q']).length = 11 ∧
    (String.mk ['d', 'Q', 'w', '4', 'w', '9', 'W', 'g', 'X', 'c', 'Q']).toList.all isIdChar = true :=
  extract_video_id_first_pattern_shape "watch?v=dQw4w9WgXcQ"
    ['d', 'Q', 'w', '4', 'w', '9', 'W', 'g', 'X', 'c', 'Q'] (by decide)

/-!  C8. -/

/-- C8 counterexample: a non-empty title matching no character-range
and no stop-word heuristic still gets a language code, namely the
English default, where the claim requires no guess. -/
theorem detect_language_no_guess_counterexample :
    heuristic_match "xxxx" = false ∧
    detect_language_from_title "xxxx" = some "en" := by
  constructor
  · decide
  · decide

/-- C8 amended: the classifier returns no guess exactly for the empty
title; on a non-empty title the two character-range heuristics are
tested first (Russian before German), then the four stop-word lists in
the fixed order French, Spanish, Portuguese, Italian, the first
matching heuristic winning regardless of later matches; and a non-empty
title matching no heuristic defaults to English rather than yielding no
guess. -/
theorem detect_language_first_match_order (title : String) :
    (detect_language_from_title title = none ↔ title = "")
    ∧ (title ≠ "" →
      (has_russian_char title = true →
        detect_language_from_title title = some "ru")
      ∧ (has_russian_char title = false → has_german_char title = true →
        detect_language_from_title title = some "de")
      ∧ (has_russian_char title = false → has_german_char title = false →
        has_french_word title = true →
        detect_language_from_title title = some "fr")
      ∧ (has_russian_char title = false → has_german_char title = false →
        has_french_word title = false → has_spanish_word title = true →
        detect_language_from_title title = some "es")
      ∧ (has_russian_char title = false → has_german_char title = false →
        has_french_word title = false → has_spanish_word title = false →
        has_portuguese_word title = true →
        detect_language_from_title title = some "pt")
      ∧ (has_russian_char title = false → has_german_char title = false →
        has_french_word title = false → has_spanish_word title = false →
        has_portuguese_word title = false → has_italian_word title = true →
        detect_language_from_title title = some "it")
      ∧ (heuristic_match title = false →
        detect_language_from_title title = some "en")) := by
  constructor
  · constructor
    · intro h
      by_contra hne
      unfold detect_language_from_title at h
      rw [if_neg hne] at h
      repeat' split at h
      all_goals simp at h
    · intro h
      subst h
      rfl
  · intro h0
    refine ⟨?_, ?_, ?_, ?_, ?_, ?_, ?_⟩
    · intro h1
      simp [detect_language_from_title, h0, h1]
    · intro h1 h2
      simp [detect_language_from_title, h0, h1, h2]
    · intro h1 h2 h3
      simp [detect_language_from_title, h0, h1, h2, h3]
    · intro h1 h2 h3 h4
      simp [detect_language_from_title, h0, h1, h2, h3, h4]
    · intro h1 h2 h3 h4 h5
      simp [detect_language_from_title, h0, h1, h2, h3, h4, h5]
    · intro h1 h2 h3 h4 h5 h6
      simp [detect_language_from_title, h0, h1, h2, h3, h4, h5, h6]
    · intro h
      unfold heuristic_match at h
      simp only [Bool.or_eq_false_iff] at h
      obtain ⟨⟨⟨⟨⟨h1, h2⟩, h3⟩, h4⟩, h5⟩, h6⟩ := h
      simp [detect_language_from_title, h0, h1, h2, h3, h4, h5, h6]

/-- Witness for the amended C8 theorem: the empty title gives no guess;
a title whose only word sits in both the Spanish and the Italian lists
is classified Spanish, the earlier list winning; an all-consonant title
defaults to English. -/
theorem detect_language_first_match_order_witness :
    detect_language_from_title "" = none ∧
    detect_language_from_title "la" = some "es" ∧
    detect_language_from_title "zzz qqq" = some "en" := by
  refine ⟨?_, ?_, ?_⟩
  · exact (detect_language_first_match_order "").1.mpr rfl
  · exact (((detect_language_first_match_order "la").2
      (by decide)).2.2.2.1) (by decide) (by decide) (by decide) (by decide)
  · exact (((detect_language_first_match_order "zzz qqq").2
      (by decide)).2.2.2.2.2.2) (by decide)

/-!  C3. -/

/-- C3: the normalizer rejects (returns none) exactly when the cleaned
text of the selected branch is no longer than fifty characters, and
every accepted result is that cleaned text, is longer than fifty
characters and in particular non-empty. -/
theorem clean_any_content_quality_gate (parse : String → Option JValue)
    (content ext : String) :
    (clean_any_content parse content ext = none ↔
      (cleaned_text parse content ext).length ≤ 50)
    ∧ (∀ t, clean_any_content parse content ext = some t →
        t = cleaned_text parse content ext ∧ 50 < t.length ∧ t ≠ "") := by
  constructor
  · rw [clean_gate]
    exact len_gate_none
  · intro t h
    have hlen := clean_some_length h
    rw [clean_gate] at h
    obtain ⟨ht, _⟩ := len_gate_some h
    refine ⟨ht, hlen, ?_⟩
    intro he
    rw [he] at hlen
    simp at hlen

/-- A cleanable dialogue line of more than fifty characters. -/
def fox_text : String :=
  "the quick brown fox jumps over the lazy dog again and again"

/-- Witness for the C3 theorem: a long plain line passes the gate and
is returned unchanged, non-empty, and longer than fifty characters. -/
theorem clean_any_content_quality_gate_witness :
    fox_text = cleaned_text (fun _ => none) fox_text "srt" ∧
    50 < fox_text.length ∧ fox_text ≠ "" :=
  (clean_any_content_quality_gate (fun _ => none) fox_text "srt").2 fox_text
    (by decide)

/-!  C9. -/

/-- C9: for every input and tag the normalizer returns a rejection or a
transcript past the gate, and a structured document that fails to parse
or has a malformed events/segs/utf8 shape falls through to the generic
line-oriented rule rather than raising. -/
theorem clean_any_content_total_and_falls_through
    (parse : String → Option JValue) (content ext : String) :
    (clean_any_content parse content ext = none ∨
      ∃ t, clean_any_content parse content ext = some t ∧ 50 < t.length)
    ∧ (parse content = none →
        clean_any_content parse content ext = len_gate (lineClean content))
    ∧ (∀ v, parse content = some v → json3_collect v = Except.error () →
        clean_any_content parse content ext = len_gate (lineClean content)) := by
  refine ⟨?_, ?_, ?_⟩
  · cases h : clean_any_content parse content ext with
    | none => exact Or.inl rfl
    | some t => exact Or.inr ⟨t, rfl, clean_some_length h⟩
  · intro hp
    unfold clean_any_content
    by_cases h0 : content = ""
    · simp only [h0, if_true]
      decide
    · simp only [h0, if_false]
      by_cases h1 : ext = "json3" ∨ startsBrace content
      · simp only [h1, if_true, hp]
      · simp only [h1, if_false]
  · intro v hp hc
    unfold clean_any_content
    by_cases h0 : content = ""
    · simp only [h0, if_true]
      decide
    · simp only [h0, if_false]
      by_cases h1 : ext = "json3" ∨ startsBrace content
      · simp only [h1, if_true, hp, hc]
      · simp only [h1, if_false]

/-- Witness for the C9 theorem: a malformed structured document whose
parse fails is handled by the line-oriented rule, not a crash. -/
theorem clean_any_content_total_and_falls_through_witness :
    clean_any_content (fun _ => none) "x" "json3" =
      len_gate (lineClean "x") :=
  (clean_any_content_total_and_falls_through (fun _ => none) "x" "json3").2.1
    rfl

/-!  C5. -/

/-- The synthetic segment-event document of the claim: one event whose
segments carry the fragments Hello, bracketed Music, and world. -/
def hello_doc : JValue :=
  JValue.obj [("events", JValue.arr [JValue.obj [("segs", JValue.arr
    [JValue.obj [("utf8", JValue.str "Hello")],
     JValue.obj [("utf8", JValue.str "[Music]")],
     JValue.obj [("utf8", JValue.str "world")]])]])]

/-- C5 counterexample: the fragment extraction does yield the parts of
the claim, but the normalizer returns a rejection for this document, not
the plain text, because the eleven-character join fails the
fifty-character quality gate. -/
theorem hello_world_rejected_by_gate :
    json3_collect hello_doc = Except.ok ["Hello", "world"] ∧
    clean_any_content (fun _ => some hello_doc) "x" "json3" = none := by
  constructor
  · rfl
  · rfl

/-- A padded variant of the synthetic document whose retained fragments
join to more than fifty characters. -/
def hello_doc_padded : JValue :=
  JValue.obj [("events", JValue.arr [JValue.obj [("segs", JValue.arr
    [JValue.obj [("utf8", JValue.str "Helloooooooooooooooooooooooooooo")],
     JValue.obj [("utf8", JValue.str "[Music]")],
     JValue.obj [("utf8", JValue.str "worldooooooooooooooooooooooooooo")]])]])]

/-- C5 amended: bracketed-only fragments are dropped and the remaining
fragment texts are space-joined in source order, yielding the text
Hello world before the gate; but the normalizer returns it only past
the fifty-character gate, so the eleven-character document is rejected
while the padded variant is returned joined by a single space. -/
theorem json3_fragments_joined_and_gated :
    json3_collect hello_doc = Except.ok ["Hello", "world"] ∧
    pyStrip (String.intercalate " " ["Hello", "world"]) = "Hello world" ∧
    clean_any_content (fun _ => some hello_doc) "x" "json3" = none ∧
    clean_any_content (fun _ => some hello_doc_padded) "x" "json3" =
      some "Helloooooooooooooooooooooooooooo worldooooooooooooooooooooooooooo" := by
  refine ⟨rfl, ?_, rfl, ?_⟩
  · decide
  · decide

/-!  C7. -/

/-- A one-line document with a run of two spaces inside the line. -/
def ws_text : String :=
  "aaaaaaaaaaaaaaaaaaaaaaaaaaaaaa  bbbbbbbbbbbbbbbbbbbbbbbbbbbbbb"

/-- Two consecutive whitespace characters occur somewhere. -/
def has_ws_run : List Char → Bool
  | a :: b :: rest => (isPyWs a && isPyWs b) || has_ws_run (b :: rest)
  | _ => false

/-- C7 counterexample: a transcript produced by the normalizer keeps
the whitespace run inside a caption line; consecutive whitespace is not
collapsed to single spaces. -/
theorem whitespace_run_survives_cleaning :
    clean_any_content (fun _ => none) ws_text "srt" = some ws_text ∧
    has_ws_run ws_text.toList = true := by
  constructor
  · decide
  · decide

theorem clean_sub_lines_spec : ∀ ls : List (List Char),
    clean_sub_lines ls =
      ((ls.map pyStripL).filter keep_stripped).map stripTagsL := by
  intro ls
  induction ls with
  | nil => rfl
  | cons l ls ih =>
    simp only [clean_sub_lines, List.map_cons, List.filter_cons]
    cases ht : pyStripL l with
    | nil => simp [keep_stripped, ih]
    | cons c cs =>
      by_cases hd : isDigitsL (c :: cs) = true
      · simp [keep_stripped, hd, ih]
      · by_cases ha : containsL time_marker (c :: cs) = true
        · simp [keep_stripped, hd, ha, ih]
        · simp [keep_stripped, hd, ha, ih]

/-- C7 amended: on the line-oriented branch the normalizer drops blank
lines, pure sequence-number lines and lines containing a time-range
marker, strips inline markup tags, strips each line at its ends, and
joins the survivors by single spaces; whitespace runs inside a line are
preserved rather than collapsed. -/
theorem line_cleaning_characterization (parse : String → Option JValue)
    (content ext : String) (h : ¬(ext = "json3" ∨ startsBrace content)) :
    clean_any_content parse content ext =
      len_gate (String.mk (line_clean_spec content.toList)) := by
  have hline : lineClean content = String.mk (line_clean_spec content.toList) := by
    unfold lineClean line_clean_spec
    rw [clean_sub_lines_spec]
  unfold clean_any_content
  by_cases h0 : content = ""
  · subst h0
    rw [if_pos rfl]
    decide
  · simp only [h0, if_false, h, if_false]
    rw [hline]

/-- Witness for the amended C7 theorem: the two-space run inside the
line survives into the accepted transcript. -/
theorem line_cleaning_characterization_witness :
    clean_any_content (fun _ => none) ws_text "vtt" =
      len_gate (String.mk (line_clean_spec ws_text.toList)) :=
  line_cleaning_characterization (fun _ => none) ws_text "vtt" (by decide)

/-!  C6. -/

theorem idxIn_lt_length : ∀ (L : List String) (e : String) (i : Nat),
    idxIn L e = some i → i < L.length := by
  intro L
  induction L with
  | nil => intro e i h; cases h
  | cons x xs ih =>
    intro e i h
    unfold idxIn at h
    split at h
    · cases h
      simp
    · cases hx : idxIn xs e with
      | none => rw [hx] at h; cases h
      | some j =>
        rw [hx] at h
        cases h
        have := ih e j hx
        simp
        omega

theorem fmtScore_le_99 (ext : String) : fmtScore ext ≤ 99 := by
  unfold fmtScore
  cases h : idxIn preferred_formats ext with
  | none => exact Nat.le_refl 99
  | some i =>
    have hlt := idxIn_lt_length preferred_formats ext i h
    show i ≤ 99
    simp [preferred_formats] at hlt
    omega

theorem select_step_none {st : Option (String × String) × Nat}
    {sub : SubEntry} (h : sub.url = none) : select_step st sub = st := by
  unfold select_step
  rw [h]

theorem select_step_some_lt {st : Option (String × String) × Nat}
    {sub : SubEntry} {u : String} (h : sub.url = some u)
    (hlt : fmtScore sub.ext < st.2) :
    select_step st sub = (some (u, sub.ext), fmtScore sub.ext) := by
  unfold select_step
  rw [h]
  show (if fmtScore sub.ext < st.2 then _ else st) = _
  rw [if_pos hlt]

theorem select_step_some_ge {st : Option (String × String) × Nat}
    {sub : SubEntry} {u : String} (h : sub.url = some u)
    (hge : ¬ fmtScore sub.ext < st.2) : select_step st sub = st := by
  unfold select_step
  rw [h]
  show (if fmtScore sub.ext < st.2 then _ else st) = _
  rw [if_neg hge]

theorem select_step_score_le (st : Option (String × String) × Nat)
    (sub : SubEntry) : (select_step st sub).2 ≤ st.2 := by
  rcases hu : sub.url with _ | u
  · rw [select_step_none hu]
  · by_cases hlt : fmtScore sub.ext < st.2
    · rw [select_step_some_lt hu hlt]
      exact Nat.le_of_lt hlt
    · rw [select_step_some_ge hu hlt]

theorem select_foldl_score_mono : ∀ (subs : List SubEntry)
    (st : Option (String × String) × Nat),
    (subs.foldl select_step st).2 ≤ st.2 := by
  intro subs
  induction subs with
  | nil => intro st; exact Nat.le_refl _
  | cons s subs ih =>
    intro st
    calc (subs.foldl select_step (select_step st s)).2
        ≤ (select_step st s).2 := ih (select_step st s)
      _ ≤ st.2 := select_step_score_le st s

theorem select_step_score_le_entry (st : Option (String × String) × Nat)
    (sub : SubEntry) (hu : sub.url ≠ none) :
    (select_step st sub).2 ≤ fmtScore sub.ext := by
  rcases h : sub.url with _ | u
  · exact absurd h hu
  · by_cases hlt : fmtScore sub.ext < st.2
    · rw [select_step_some_lt h hlt]
    · rw [select_step_some_ge h hlt]
      omega

theorem select_foldl_score_le_entry : ∀ (subs : List SubEntry)
    (st : Option (String × String) × Nat) (sub : SubEntry),
    sub ∈ subs → sub.url ≠ none →
    (subs.foldl select_step st).2 ≤ fmtScore sub.ext := by
  intro subs
  induction subs with
  | nil => intro st sub hm; cases hm
  | cons s subs ih =>
    intro st sub hm hu
    cases hm with
    | head =>
      calc (subs.foldl select_step (select_step st s)).2
          ≤ (select_step st s).2 := select_foldl_score_mono subs _
        _ ≤ fmtScore s.ext := select_step_score_le_entry st s hu
    | tail _ hm2 => exact ih (select_step st s) sub hm2 hu

theorem select_foldl_inv : ∀ (subs : List SubEntry)
    (st : Option (String × String) × Nat),
    (∀ u f, st.1 = some (u, f) → st.2 = fmtScore f) →
    ∀ u f, (subs.foldl select_step st).1 = some (u, f) →
      (subs.foldl select_step st).2 = fmtScore f := by
  intro subs
  induction subs with
  | nil => intro st hst u f h; exact hst u f h
  | cons s subs ih =>
    intro st hst u f h
    refine ih (select_step st s) ?_ u f h
    intro u2 f2 h2
    rcases hs : s.url with _ | us
    · rw [select_step_none hs] at h2 ⊢
      exact hst u2 f2 h2
    · by_cases hlt : fmtScore s.ext < st.2
      · rw [select_step_some_lt hs hlt] at h2 ⊢
        have h3 : some (us, s.ext) = some (u2, f2) := h2
        injection h3 with h4
        injection h4 with h5 h6
        show fmtScore s.ext = fmtScore f2
        rw [h6]
      · rw [select_step_some_ge hs hlt] at h2 ⊢
        exact hst u2 f2 h2

/-- C6: when download_and_process_subs selects a delivery url with
format f, the score of f (its position in the fixed preference list
json3, json, srv3, vtt, srt, or 99 when unrecognized) is minimal among
all entries carrying a url, and an unrecognized format is selected only
when no entry with a url has a recognized format. -/
theorem download_format_ladder (subs : List SubEntry) (u f : String)
    (h : select_best subs = some (u, f)) :
    (∀ sub ∈ subs, sub.url ≠ none → fmtScore f ≤ fmtScore sub.ext)
    ∧ (idxIn preferred_formats f = none →
       ∀ sub ∈ subs, sub.url ≠ none →
         idxIn preferred_formats sub.ext = none) := by
  unfold select_best at h
  have hscore := select_foldl_inv subs (none, 100) (by intro u2 f2 h2; cases h2)
    u f h
  constructor
  · intro sub hm hu
    have hle := select_foldl_score_le_entry subs (none, 100) sub hm hu
    omega
  · intro hf sub hm hu
    have hle := select_foldl_score_le_entry subs (none, 100) sub hm hu
    have hf99 : fmtScore f = 99 := by unfold fmtScore; rw [hf]
    cases hx : idxIn preferred_formats sub.ext with
    | none => rfl
    | some j =>
      have hjlt := idxIn_lt_length preferred_formats sub.ext j hx
      have hsub : fmtScore sub.ext = j := by unfold fmtScore; rw [hx]
      simp [preferred_formats] at hjlt
      omega

/-- Witness for the C6 theorem: between an unrecognized format and vtt,
the vtt entry wins, with minimal score; derived by applying the theorem
to the two entries. -/
theorem download_format_ladder_witness :
    select_best [SubEntry.mk (some "u1") "weird", SubEntry.mk (some "u2") "vtt"]
      = some ("u2", "vtt") ∧
    fmtScore "vtt" ≤ fmtScore "weird" := by
  refine ⟨by decide, ?_⟩
  exact (download_format_ladder
    [SubEntry.mk (some "u1") "weird", SubEntry.mk (some "u2") "vtt"]
    "u2" "vtt" (by decide)).1 (SubEntry.mk (some "u1") "weird")
    (by simp) (by simp)

/-!  C4.  First a chain of lemmas: any success carried out of the
orchestrator holds text that passed the quality gate, so a returned
result always has non-empty subtitle text and the not-found branch of
the route is unreachable. -/

theorem download_subs_some_length {env : Env} {subs : List SubEntry}
    {t f : String} (h : download_and_process_subs env subs = some (t, f)) :
    50 < t.length := by
  unfold download_and_process_subs at h
  split at h
  · cases h
  · split at h
    · cases h
    · split at h
      · rename_i heq
        have h2 : some (_, _) = some (t, f) := h
        injection h2 with h3
        injection h3 with h4 h5
        rw [← h4]
        exact clean_some_length heq
      · cases h

theorem lookup_download_some_length {env : Env} {catOpt : Option Catalog}
    {language stype t l s : String}
    (h : lookup_download env catOpt language stype = some (t, l, s)) :
    50 < t.length := by
  unfold lookup_download at h
  split at h
  · split at h
    · split at h
      · rename_i heq
        have h2 : some (_, _, _) = some (t, l, s) := h
        injection h2 with h3
        injection h3 with h4 h5
        rw [← h4]
        exact download_subs_some_length heq
      · cases h
    · cases h
  · cases h

theorem check_language_some_length {env : Env} {info : VideoInfo}
    {language t l s : String}
    (h : check_language_with_priority env info language = some (t, l, s)) :
    50 < t.length := by
  unfold check_language_with_priority at h
  split at h
  · rename_i r heq
    cases h
    exact lookup_download_some_length heq
  · exact lookup_download_some_length h

theorem try_langs_some_length {env : Env} {cat : Catalog}
    {stype t l s : String} :
    ∀ ls, try_langs env cat stype ls = some (t, l, s) → 50 < t.length := by
  intro ls
  induction ls with
  | nil => intro h; cases h
  | cons x ls ih =>
    intro h
    unfold try_langs at h
    split at h
    · split at h
      · rename_i heq
        have h2 : some (_, _, _) = some (t, l, s) := h
        injection h2 with h3
        injection h3 with h4 h5
        rw [← h4]
        exact download_subs_some_length heq
      · exact ih h
    · exact ih h

theorem check_side_some_length {env : Env} {cat : Catalog}
    {stype t l s : String}
    (h : check_side env cat stype = some (t, l, s)) : 50 < t.length := by
  unfold check_side at h
  split at h
  · cases h
  · split at h
    · rename_i heq
      cases h
      exact try_langs_some_length _ heq
    · split at h
      · rename_i heq
        have h2 : some (_, _, _) = some (t, l, s) := h
        injection h2 with h3
        injection h3 with h4 h5
        rw [← h4]
        exact download_subs_some_length heq
      · cases h

theorem check_any_some_length {env : Env} {info : VideoInfo}
    {t l s : String}
    (h : check_any_available_language env info = some (t, l, s)) :
    50 < t.length := by
  unfold check_any_available_language at h
  split at h
  · rename_i r heq
    cases h
    split at heq
    · exact check_side_some_length heq
    · cases heq
  · split at h
    · exact check_side_some_length h
    · cases h

theorem get_subtitles_some_length {env : Env} {info : VideoInfo}
    {title t l s : String}
    (h : get_subtitles_with_priority env info title = some (t, l, s)) :
    50 < t.length := by
  unfold get_subtitles_with_priority at h
  split at h
  · rename_i heq
    cases h
    exact check_language_some_length heq
  · split at h
    · rename_i heq
      cases h
      exact check_language_some_length heq
    · split at h
      · rename_i r heq
        cases h
        split at heq
        · split at heq
          · exact check_language_some_length heq
          · cases heq
        · cases heq
      · exact check_any_some_length h

theorem run_attempt_success_length {env : Env} {vid : String}
    {last : Bool} {e : AttemptEvent} {r : DLResult}
    (h : run_attempt env vid last e = some (some r)) :
    50 < r.subtitles.length := by
  cases e with
  | infoOk info title author =>
    simp only [run_attempt] at h
    split at h
    · rename_i text lang st heq
      injection h with h3
      injection h3 with h4
      rw [← h4]
      exact get_subtitles_some_length heq
    · split at h
      · injection h with h3
        cases h3
      · cases h
  | infoNone =>
    simp only [run_attempt] at h
    split at h
    · injection h with h3
      cases h3
    · cases h
  | raiseBlocked =>
    simp only [run_attempt] at h
    split at h
    · injection h with h3
      cases h3
    · cases h
  | raiseOther =>
    simp only [run_attempt] at h
    split at h
    · injection h with h3
      cases h3
    · cases h
  | raiseGeneric =>
    simp only [run_attempt] at h
    split at h
    · injection h with h3
      cases h3
    · cases h

theorem download_subtitles_some_length {env : Env} {vid : String}
    {e1 e2 : AttemptEvent} {r : DLResult}
    (h : download_subtitles env vid e1 e2 = some r) :
    50 < r.subtitles.length := by
  unfold download_subtitles at h
  split at h
  · rename_i out heq
    rw [h] at heq
    exact run_attempt_success_length heq
  · split at h
    · rename_i out heq
      rw [h] at heq
      exact run_attempt_success_length heq
    · cases h

/-- C4 counterexample: a run in which every attempt terminates with the
confirmed block signal returns the very same terminal value, None, as a
run that merely found no subtitles, and the route classifies the two
identically; the all-blocked exhaustion is not distinguishable. -/
theorem upstream_blocked_indistinct :
    download_subtitles (Env.mk (fun _ => none) (fun _ => none)) "vid"
      AttemptEvent.raiseBlocked AttemptEvent.raiseBlocked = none ∧
    download_subtitles (Env.mk (fun _ => none) (fun _ => none)) "vid"
      AttemptEvent.infoNone AttemptEvent.infoNone = none ∧
    download_subtitles_route
      (download_subtitles (Env.mk (fun _ => none) (fun _ => none)) "vid"
        AttemptEvent.raiseBlocked AttemptEvent.raiseBlocked) =
    download_subtitles_route
      (download_subtitles (Env.mk (fun _ => none) (fun _ => none)) "vid"
        AttemptEvent.infoNone AttemptEvent.infoNone) :=
  ⟨rfl, rfl, rfl⟩

/-- C4 amended: download_subtitles collapses every failure, including a
run in which every attempt ended with the confirmed block signal, into
the single terminal value None; the route maps every None to the one
fixed blocked-message error response, and the separate not-found
response is unreachable because every returned result carries text past
the quality gate.  No distinct UpstreamBlocked outcome exists. -/
theorem download_failure_single_outcome (env : Env) (vid : String)
    (e1 e2 : AttemptEvent) :
    (download_subtitles env vid e1 e2 = none →
      download_subtitles_route (download_subtitles env vid e1 e2) =
        RouteOutcome.errBlockedMsg)
    ∧ (∀ r, download_subtitles env vid e1 e2 = some r →
        50 < r.subtitles.length ∧
        download_subtitles_route (download_subtitles env vid e1 e2) =
          RouteOutcome.ok r) := by
  constructor
  · intro h
    rw [h]
    rfl
  · intro r h
    have hlen := download_subtitles_some_length h
    have hne : r.subtitles ≠ "" := by
      intro he
      rw [he] at hlen
      simp at hlen
    refine ⟨hlen, ?_⟩
    rw [h]
    unfold download_subtitles_route
    simp [hne]

/-- Witness for the amended C4 theorem: the all-blocked run surfaces
the same single error classification. -/
theorem download_failure_single_outcome_witness :
    download_subtitles_route
      (download_subtitles (Env.mk (fun _ => none) (fun _ => none)) "v"
        AttemptEvent.raiseBlocked AttemptEvent.raiseBlocked) =
      RouteOutcome.errBlockedMsg :=
  (download_failure_single_outcome (Env.mk (fun _ => none) (fun _ => none))
    "v" AttemptEvent.raiseBlocked AttemptEvent.raiseBlocked).1 rfl


/-!  C1: the language ladder.  The orchestrator is proved equal to the
first success over the rungs of the specification's ladder, taken in
the spec's stated order, and the claim's concrete example is checked. -/

/-- Strict first-of-two combinator, the shape of every fall-through in
the orchestrator. -/
def oelse (a b : Option α) : Option α :=
  match a with
  | some r => some r
  | none => b

theorem oelse_some (r : α) (b : Option α) : oelse (some r) b = some r := rfl

theorem oelse_none (b : Option α) : oelse none b = b := rfl

theorem firstSome_append (l1 l2 : List (Option α)) :
    firstSome (l1 ++ l2) = oelse (firstSome l1) (firstSome l2) := by
  induction l1 with
  | nil => rfl
  | cons o os ih =>
    cases o with
    | some r => rfl
    | none =>
      simp only [List.cons_append, firstSome]
      exact ih

theorem lookup_download_some_cat (env : Env) (cat : Catalog)
    (l stype : String) :
    lookup_download env (some cat) l stype =
      (match List.lookup l cat with
       | some subs =>
         match download_and_process_subs env subs with
         | some (text, _) => some (text, l, stype)
         | none => none
       | none => none) := rfl

theorem tryStep_lang (env : Env) (info : VideoInfo) (m : Bool) (l : String) :
    tryStep env info (Step.lang m l) =
      lookup_download env (sideCat info m) l (stypeOf m) := rfl

theorem tryStep_firstCat (env : Env) (info : VideoInfo) (m : Bool) :
    tryStep env info (Step.firstCat m) =
      (match sideCat info m with
       | some ((l0, subs0) :: _) =>
         match download_and_process_subs env subs0 with
         | some (text, _) => some (text, l0, stypeOf m)
         | none => none
       | _ => none) := rfl

theorem sideCat_true (info : VideoInfo) :
    sideCat info true = info.subtitles := rfl

theorem sideCat_false (info : VideoInfo) :
    sideCat info false = info.automatic_captions := rfl

theorem stypeOf_true : stypeOf true = "manual" := rfl

theorem stypeOf_false : stypeOf false = "auto" := rfl

theorem check_language_eq_steps (env : Env) (info : VideoInfo) (l : String) :
    firstSome (List.map (tryStep env info)
        [Step.lang true l, Step.lang false l]) =
      check_language_with_priority env info l := by
  simp only [List.map_cons, List.map_nil, tryStep_lang, sideCat_true,
    sideCat_false, stypeOf_true, stypeOf_false]
  unfold check_language_with_priority
  cases lookup_download env info.subtitles l "manual" with
  | some r => rfl
  | none =>
    cases lookup_download env info.automatic_captions l "auto" with
    | some r => rfl
    | none => rfl

theorem try_langs_nil_cat (env : Env) (stype : String) :
    ∀ ls : List String, try_langs env [] stype ls = none := by
  intro ls
  induction ls with
  | nil => rfl
  | cons l ls ih =>
    unfold try_langs
    exact ih

theorem try_langs_cons (env : Env) (cat : Catalog) (stype l : String)
    (ls : List String) :
    try_langs env cat stype (l :: ls) =
      oelse (lookup_download env (some cat) l stype)
        (try_langs env cat stype ls) := by
  rw [lookup_download_some_cat]
  cases hlk : List.lookup l cat with
  | none => simp only [try_langs, hlk, oelse]
  | some subs =>
    simp only [try_langs, hlk, oelse]
    cases download_and_process_subs env subs with
    | none => rfl
    | some p =>
      obtain ⟨text, fmt⟩ := p
      rfl

theorem try_langs_eq_steps (env : Env) (info : VideoInfo) (m : Bool)
    (cat : Catalog) (hside : sideCat info m = some cat) :
    ∀ ls : List String,
      firstSome (List.map (tryStep env info) (ls.map (Step.lang m))) =
        try_langs env cat (stypeOf m) ls := by
  intro ls
  induction ls with
  | nil => rfl
  | cons l ls ih =>
    have htry : tryStep env info (Step.lang m l) =
        lookup_download env (some cat) l (stypeOf m) := by
      rw [tryStep_lang, hside]
    rw [try_langs_cons]
    simp only [List.map_cons, firstSome, htry, oelse]
    cases lookup_download env (some cat) l (stypeOf m) with
    | some r => rfl
    | none => exact ih

theorem side_steps_eval_none (env : Env) (info : VideoInfo) (m : Bool)
    (hside : sideCat info m = none) :
    firstSome (List.map (tryStep env info) (side_steps m)) = none := by
  unfold side_steps
  rw [List.map_append, firstSome_append]
  have hl : ∀ ls : List String,
      firstSome (List.map (tryStep env info) (ls.map (Step.lang m))) =
        none := by
    intro ls
    induction ls with
    | nil => rfl
    | cons l ls ih =>
      have htry : tryStep env info (Step.lang m l) = none := by
        rw [tryStep_lang, hside]
        rfl
      simp only [List.map_cons, firstSome, htry]
      exact ih
  rw [hl popular_langs, oelse_none]
  have hfc : tryStep env info (Step.firstCat m) = none := by
    rw [tryStep_firstCat, hside]
  simp only [List.map_cons, List.map_nil, firstSome, hfc]

theorem side_steps_eval_some (env : Env) (info : VideoInfo) (m : Bool)
    (cat : Catalog) (hside : sideCat info m = some cat) :
    firstSome (List.map (tryStep env info) (side_steps m)) =
      check_side env cat (stypeOf m) := by
  unfold side_steps
  rw [List.map_append, firstSome_append,
    try_langs_eq_steps env info m cat hside popular_langs]
  cases cat with
  | nil =>
    rw [try_langs_nil_cat, oelse_none]
    have hfc : tryStep env info (Step.firstCat m) = none := by
      rw [tryStep_firstCat, hside]
    simp only [List.map_cons, List.map_nil, firstSome, hfc]
    rfl
  | cons p rest =>
    obtain ⟨l0, subs0⟩ := p
    have hfc : tryStep env info (Step.firstCat m) =
        (match download_and_process_subs env subs0 with
         | some (text, _) => some (text, l0, stypeOf m)
         | none => none) := by
      rw [tryStep_firstCat, hside]
    simp only [check_side, List.map_cons, List.map_nil, firstSome, hfc,
      oelse]
    cases try_langs env ((l0, subs0) :: rest) (stypeOf m)
        popular_langs with
    | some r => rfl
    | none =>
      cases download_and_process_subs env subs0 with
      | some p2 =>
        obtain ⟨text, fmt⟩ := p2
        rfl
      | none => rfl

theorem check_any_eq_steps (env : Env) (info : VideoInfo) :
    oelse (firstSome (List.map (tryStep env info) (side_steps true)))
      (firstSome (List.map (tryStep env info) (side_steps false))) =
      check_any_available_language env info := by
  unfold check_any_available_language
  cases hs : info.subtitles with
  | none =>
    rw [side_steps_eval_none env info true (by rw [sideCat_true, hs]),
      oelse_none]
    cases ha : info.automatic_captions with
    | none =>
      rw [side_steps_eval_none env info false (by rw [sideCat_false, ha])]
    | some as_ =>
      rw [side_steps_eval_some env info false as_
        (by rw [sideCat_false, ha])]
      rfl
  | some ms =>
    rw [side_steps_eval_some env info true ms (by rw [sideCat_true, hs])]
    simp only [stypeOf_true]
    cases check_side env ms "manual" with
    | some r => rfl
    | none =>
      rw [oelse_none]
      cases ha : info.automatic_captions with
      | none =>
        rw [side_steps_eval_none env info false (by rw [sideCat_false, ha])]
      | some as_ =>
        rw [side_steps_eval_some env info false as_
          (by rw [sideCat_false, ha])]
        rfl

/-- A second passing text, for the Russian track of the example. -/
def ru_filler : String :=
  "ru ru ru ru ru ru ru ru ru ru ru ru ru ru ru ru ru ru"

/-- The environment of the claim's example: both delivery urls fetch a
text that passes the gate. -/
def demo_env : Env :=
  Env.mk
    (fun u => if u = "https://en.example/track" then some fox_text
              else some ru_filler)
    (fun _ => none)

/-- The catalog of the claim's example: one English manual track and
one Russian automatic track, both downloadable. -/
def demo_info : VideoInfo :=
  VideoInfo.mk
    (some [("en", [SubEntry.mk (some "https://en.example/track") "vtt"])])
    (some [("ru", [SubEntry.mk (some "https://ru.example/track") "vtt"])])

/-- C1: the orchestrator equals the first success over the rungs of the
specification's language ladder taken in its stated order, for every
catalog, title and environment; and on a catalog holding an English
manual track and a Russian automatic track that would both succeed, the
English manual track is selected. -/
theorem language_priority_ladder :
    (∀ (env : Env) (info : VideoInfo) (title : String),
      get_subtitles_with_priority env info title =
        firstSome (List.map (tryStep env info)
          (spec_language_ladder (detect_language_from_title title))))
    ∧ get_subtitles_with_priority demo_env demo_info "" =
        some (fox_text, "en", "manual") := by
  constructor
  · intro env info title
    unfold get_subtitles_with_priority spec_language_ladder
    cases hvl : detect_language_from_title title with
    | none =>
      dsimp only
      simp only [List.nil_append, List.map_append, firstSome_append,
        check_language_eq_steps, check_any_eq_steps]
      cases check_language_with_priority env info "en" with
      | some r => rfl
      | none =>
        cases check_language_with_priority env info "ru" with
        | some r => rfl
        | none => rfl
    | some l =>
      dsimp only
      by_cases hc : l ≠ "en" ∧ l ≠ "ru"
      · rw [if_pos hc, if_pos hc]
        simp only [List.map_append, firstSome_append,
          check_language_eq_steps, check_any_eq_steps]
        cases check_language_with_priority env info "en" with
        | some r => rfl
        | none =>
          cases check_language_with_priority env info "ru" with
          | some r => rfl
          | none =>
            cases check_language_with_priority env info l with
            | some r => rfl
            | none => rfl
      · rw [if_neg hc, if_neg hc]
        simp only [List.nil_append, List.map_append, firstSome_append,
          check_language_eq_steps, check_any_eq_steps]
        cases check_language_with_priority env info "en" with
        | some r => rfl
        | none =>
          cases check_language_with_priority env info "ru" with
          | some r => rfl
          | none => rfl
  · decide

end YtD
